import Mathlib

open scoped ENNReal

/-!
Verification of the shuttletracker ingestion and route-inference pipeline.

This file shallowly embeds the Go source of the updater package (feed record
splitting, regex field parsing, timestamp reconstruction, update building and
de-duplication, and the route guesser) together with the parts of the Postgres
storage layer the updater relies on, and proves/refutes the frozen claims
about them.

Modelling conventions:
- Go `time.Time` values produced by `time.Date(..., time.UTC)` are modelled as
  an integer count of seconds since 0001-01-01T00:00:00 UTC in the proleptic
  Gregorian calendar; `time.Date` normalization of out-of-range components is
  plain integer arithmetic, exactly as in Go.
- Go machine integers are modelled as `Int` (no token in the repository can
  overflow a 64-bit int on the paths the claims exercise).
- IEEE float64 values that only carry parsed data (latitude, longitude, speed)
  are modelled as exact rationals; float arithmetic inside the route guesser
  (square roots, `math.Inf`, accumulation, averaging) is modelled over the
  extended non-negative reals `ENNReal`, which captures the `+Inf` absorption
  the code relies on. No claim depends on float rounding.
- Fallible Go calls return `Option`/`GoRes`; a Go runtime panic (out-of-range
  slice, indexing a nil slice) is the explicit `GoRes.panicked` /
  `Outcome.panicked` value. In Go, an unrecovered panic inside one of the
  per-record goroutines terminates the whole process; the cycle model maps
  any panicked record to a crashed cycle (`none`).
- The database (interface `database.Database`, implemented by
  `database.Postgres`) is modelled as in-memory lists with the query semantics
  of the SQL in postgres.go: lookup by itrak id, last update ordered by
  `created DESC`, updates since a time, insert, delete-before. In this pure
  model the storage never fails, so the only storage "error" is not-found,
  which the Go code treats as a distinct non-fatal condition.
- Go map iteration order is unspecified; the selection loop of
  `GuessRouteForVehicle` is therefore parametrised by the iteration order of
  the key set, and the claims about order-independence quantify over it.
-/

/-- Result of a Go computation: a runtime panic, an error return, or a value. -/
inductive GoRes (α : Type) where
  | panicked : GoRes α
  | failed : GoRes α
  | ok : α → GoRes α
deriving DecidableEq

/-- Decimal value of a digit list, most significant first
(`'0'` has code point 48). -/
def digitsVal (l : List Char) : Int :=
  l.foldl (fun a c => a * 10 + ((c.toNat : Int) - 48)) 0

/-- Model of Go `strconv.Atoi`: optional sign, then one or more ASCII digits.
(The range check of the real Atoi is not modelled: no token in the feed paths
exercised by the claims approaches 2^63.) -/
def atoiGo (s : String) : Option Int :=
  match s.data with
  | [] => none
  | c :: cs =>
    if c = '+' then
      if cs ≠ [] ∧ cs.all Char.isDigit then some (digitsVal cs) else none
    else if c = '-' then
      if cs ≠ [] ∧ cs.all Char.isDigit then some (-(digitsVal cs)) else none
    else if (c :: cs).all Char.isDigit then some (digitsVal (c :: cs)) else none

/-- Go string slicing `s[lo:hi]` (byte-indexed in Go; all feed tokens are
ASCII, so character indexing coincides). Out-of-range bounds panic. -/
def goSlice (s : String) (lo hi : Int) : GoRes String :=
  if 0 ≤ lo ∧ lo ≤ hi ∧ hi ≤ (s.length : Int) then
    .ok (String.mk ((s.data.drop lo.toNat).take (hi - lo).toNat))
  else .panicked

/-- Proleptic Gregorian leap year. -/
def isLeap (y : Int) : Bool := (y % 4 == 0 && y % 100 != 0) || y % 400 == 0

/-- Days from 0001-01-01 to the start of year `y` (proleptic Gregorian,
total over `Int` via floor division). -/
def daysBeforeYear (y : Int) : Int :=
  365 * (y - 1) + (y - 1).ediv 4 - (y - 1).ediv 100 + (y - 1).ediv 400

/-- Days from the start of the year to the start of month `m` (1-based,
assuming `1 ≤ m ≤ 12`), in year `y`. -/
def daysBeforeMonth (y : Int) (m : Int) : Int :=
  (if m ≤ 1 then 0 else if m ≤ 2 then 31 else if m ≤ 3 then 59
   else if m ≤ 4 then 90 else if m ≤ 5 then 120 else if m ≤ 6 then 151
   else if m ≤ 7 then 181 else if m ≤ 8 then 212 else if m ≤ 9 then 243
   else if m ≤ 10 then 273 else if m ≤ 11 then 304 else 334)
  + (if 2 < m ∧ isLeap y then 1 else 0)

/-- Model of Go `time.Date(y, mo, d, h, mi, s, 0, time.UTC)` as seconds since
0001-01-01T00:00:00 UTC. Go normalizes out-of-range components: months fold
into the year, and day/hour/minute/second offsets are plain arithmetic. -/
def goTimeDate (y mo d h mi s : Int) : Int :=
  let y2 := y + (mo - 1).ediv 12
  let m := (mo - 1).emod 12 + 1
  (daysBeforeYear y2 + daysBeforeMonth y2 m + (d - 1)) * 86400
    + h * 3600 + mi * 60 + s

/-- Seconds from 0001-01-01 to the Unix epoch, for anchoring concrete
instants to familiar Unix timestamps. -/
def unixEpoch : Int := goTimeDate 1970 1 1 0 0 0

/-- Embedding of `generateTimestamp` (updater, lines 266-300): slices the date
token as day `[2:4]`, year `[4:8]`, month `[0:2]`, converts the month number
through the zero `time.Time` plus `AddDate(0, monthNum-1, 0)` trick (whose
`Month()` is `(monthNum-1) mod 12 + 1`; the year carry of that normalization
is discarded by the source, which reuses the year token's value), slices the
time token as hour `[0:len-4]`, minute `[len-4:len-2]`, second `[len-2:len]`,
and builds the `time.Date`. Each `Atoi` failure is an error return; each
out-of-range slice is a Go panic. -/
def generateTimestamp (itrakTime itrakDate : String) : GoRes Int :=
  match goSlice itrakDate 2 4 with
  | .panicked => .panicked
  | .failed => .failed
  | .ok dayStr =>
  match atoiGo dayStr with
  | none => .failed
  | some day =>
  match goSlice itrakDate 4 8 with
  | .panicked => .panicked
  | .failed => .failed
  | .ok yearStr =>
  match atoiGo yearStr with
  | none => .failed
  | some year =>
  match goSlice itrakDate 0 2 with
  | .panicked => .panicked
  | .failed => .failed
  | .ok monthStr =>
  match atoiGo monthStr with
  | none => .failed
  | some monthNum =>
  let month := (monthNum - 1).emod 12 + 1
  match goSlice itrakTime 0 ((itrakTime.length : Int) - 4) with
  | .panicked => .panicked
  | .failed => .failed
  | .ok hourStr =>
  match atoiGo hourStr with
  | none => .failed
  | some hour =>
  match goSlice itrakTime ((itrakTime.length : Int) - 4) ((itrakTime.length : Int) - 2) with
  | .panicked => .panicked
  | .failed => .failed
  | .ok minStr =>
  match atoiGo minStr with
  | none => .failed
  | some minute =>
  match goSlice itrakTime ((itrakTime.length : Int) - 2) (itrakTime.length : Int) with
  | .panicked => .panicked
  | .failed => .failed
  | .ok secStr =>
  match atoiGo secStr with
  | none => .failed
  | some second =>
  .ok (goTimeDate year month day hour minute second)

/-- Model of Go `strconv.ParseFloat(s, 64)` restricted to the character set
the feed regex can deliver (digits, dots, minus): optional leading sign, then
digits with at most one decimal point and at least one digit. The value is
the exact rational (no claim depends on float rounding, and the tokens in the
claims are far from the float64 overflow range, so the range-error branch of
the real ParseFloat is not modelled). `none` is Go's syntax error, for which
the real ParseFloat returns the value 0 alongside the error. -/
def parseFloatDigits (l : List Char) : Option ℚ :=
  match l.span (fun c => c ≠ '.') with
  | (ip, []) => if ip ≠ [] ∧ ip.all Char.isDigit then some (digitsVal ip : ℚ) else none
  | (ip, _ :: fp) =>
    if (ip ≠ [] ∨ fp ≠ []) ∧ ip.all Char.isDigit ∧ fp.all Char.isDigit then
      some ((digitsVal ip : ℚ) + (digitsVal fp : ℚ) / (10 : ℚ) ^ fp.length)
    else none

def parseFloatGo (s : String) : Option ℚ :=
  match s.data with
  | [] => none
  | '+' :: rest => parseFloatDigits rest
  | '-' :: rest => (parseFloatDigits rest).map (fun q => -q)
  | l => parseFloatDigits l

/-- Embedding of `kphToMPH` (updater, line 303): fixed multiplicative constant. The float
literal 0.621371192 is modelled by the exact decimal rational. -/
def kphToMPH (kmh : ℚ) : ℚ := kmh * (621371192 / 1000000000 : ℚ)

/-- Remove every non-overlapping occurrence of `pat`, scanning left to right.
Fuel-structured so evaluation is kernel-reducible; the fuel (the input
length) never runs out because every step consumes at least one character
when `pat` is nonempty (all field tags are). -/
def removeAllAux (pat : List Char) : Nat → List Char → List Char
  | 0, s => s
  | _ + 1, [] => []
  | n + 1, c :: cs =>
    if pat ≠ [] ∧ pat.isPrefixOf (c :: cs) then removeAllAux pat n ((c :: cs).drop pat.length)
    else c :: removeAllAux pat n cs

/-- Go `strings.Replace(s, tag, "", -1)`: remove every occurrence. -/
def stripTag (s tag : String) : String :=
  String.mk (removeAllAux tag.data s.data.length s.data)

/-- model.Vehicle as used by the updater: internal id, iTrak feed id, display
name, enabled flag (vehicles table of postgres.go). -/
structure GoVehicle where
  id : Int
  itrakID : Int
  name : String
  enabled : Bool
deriving DecidableEq

/-- One coordinate of a route path. -/
structure GoCoord where
  lat : ℚ
  lng : ℚ
deriving DecidableEq

/-- model.Route as used by the updater: string id, name, enabled flag,
ordered coordinate path. -/
structure GoRoute where
  id : String
  name : String
  enabled : Bool
  coords : List GoCoord
deriving DecidableEq

/-- The Go zero value `model.Route{}` ("no route"). -/
def emptyRoute : GoRoute := { id := "", name := "", enabled := false, coords := [] }

/-- model.Update as built by the updater (lines 233-243). `speed` holds the
converted MPH value (the source renders it with `strconv.FormatFloat(_, 'f',
5, 64)`; the decimal formatting is immaterial to every claim and is kept as
the exact value). `timestamp` is the reconstructed event instant, `created`
the storage-assigned creation time, `route` the guessed route id. -/
structure GoUpdate where
  vehicleID : Int
  latitude : ℚ
  longitude : ℚ
  heading : String
  speed : ℚ
  lock : String
  timestamp : Int
  created : Int
  route : String
deriving DecidableEq

/-- The storage state: vehicles, routes, and updates in insertion order. -/
structure DB where
  vehicles : List GoVehicle
  routes : List GoRoute
  updates : List GoUpdate
deriving DecidableEq

/-- Embedding of `GetVehicleByITrakID` (postgres.go): first row with the matching iTrak
id; `none` is `ErrVehicleNotFound`. -/
def getVehicleByITrakID (db : DB) (itrakID : Int) : Option GoVehicle :=
  db.vehicles.find? (fun v => v.itrakID == itrakID)

/-- Embedding of `GetLastUpdateForVehicle` (postgres.go): `ORDER BY created DESC LIMIT 1`
over the vehicle's updates; `none` is `ErrUpdateNotFound`. Among equal
`created` values SQL leaves the winner unspecified; the model picks the most
recently inserted. -/
def getLastUpdateForVehicle (db : DB) (vehicleID : Int) : Option GoUpdate :=
  (db.updates.filter (fun u => u.vehicleID == vehicleID)).foldl
    (fun acc u => match acc with
      | none => some u
      | some a => if a.created ≤ u.created then some u else some a) none

/-- Embedding of `GetUpdatesForVehicleSince` (postgres.go): rows with `created > since`
for the vehicle, `ORDER BY created DESC` (reverse insertion order; the
updater only uses the length and an order-insensitive accumulation). -/
def getUpdatesForVehicleSince (db : DB) (vehicleID : Int) (since : Int) : List GoUpdate :=
  ((db.updates.filter (fun u => u.vehicleID == vehicleID && decide (since < u.created))).reverse)

/-- Embedding of `GetRoute` (postgres.go): row with the matching id. -/
def getRoute (db : DB) (routeID : String) : Option GoRoute :=
  db.routes.find? (fun r => r.id == routeID)

/-- Embedding of `CreateUpdate` (postgres.go): insert a row (append; `created` was set by
the caller from the current time). -/
def createUpdate (db : DB) (u : GoUpdate) : DB :=
  { db with updates := db.updates ++ [u] }

/-- Embedding of `DeleteUpdatesBefore` (postgres.go): delete rows with `created < before`. -/
def deleteUpdatesBefore (db : DB) (before : Int) : DB :=
  { db with updates := db.updates.filter (fun u => !decide (u.created < before)) }

/-- The named captures of the feed regex (New, line 93), one field per named
group, each holding the full group text tag included, exactly what
`result[name]` stores after the submatch loop (lines 156-161). -/
structure ParsedRecord where
  id : String
  lat : String
  lng : String
  heading : String
  speed : String
  lock : String
  time : String
  date : String
  status : String
deriving DecidableEq

/-- Character class `[\d\.]` of the id group. -/
def classID (c : Char) : Bool := c.isDigit || c == '.'

/-- Character class `[\d\.-]` of the lat/lng/dir/spd/lck groups. -/
def classNum (c : Char) : Bool := c.isDigit || c == '.' || c == '-'

/-- Match a literal at the head of the input, returning the remainder. -/
def litAt : List Char → List Char → Option (List Char)
  | [], s => some s
  | _, [] => none
  | p :: ps, c :: cs => if p == c then litAt ps cs else none

/-- Greedy nonempty character-class run (`[...]+`), returning the run and the
remainder. Because every class of the feed regex excludes the space that
begins the following literal, the greedy run never needs to backtrack: any
shorter run would leave a class character where the literal expects a space.
The regex engine's behaviour on this pattern is therefore exactly
deterministic maximal munch. -/
def munch (cls : Char → Bool) (s : List Char) : Option (List Char × List Char) :=
  match s.span cls with
  | ([], _) => none
  | (v, rest) => some (v, rest)

/-- A tag literal followed by its greedy character-class run. -/
def fieldAt (tag : String) (cls : Char → Bool) (s : List Char) :
    Option (List Char × List Char) :=
  match litAt tag.data s with
  | none => none
  | some r => munch cls r

/-- Attempt to match the full feed pattern starting exactly at the head of
`s` (trailing input after the match is ignored, as a regex match is). -/
def matchFieldsAt (s : List Char) : Option ParsedRecord :=
  match fieldAt "Vehicle ID:" classID s with
  | none => none
  | some (v1, r1) =>
  match fieldAt " lat:" classNum r1 with
  | none => none
  | some (v2, r2) =>
  match fieldAt " lon:" classNum r2 with
  | none => none
  | some (v3, r3) =>
  match fieldAt " dir:" classNum r3 with
  | none => none
  | some (v4, r4) =>
  match fieldAt " spd:" classNum r4 with
  | none => none
  | some (v5, r5) =>
  match fieldAt " lck:" classNum r5 with
  | none => none
  | some (v6, r6) =>
  match fieldAt " time:" Char.isDigit r6 with
  | none => none
  | some (v7, r7) =>
  match fieldAt " date:" Char.isDigit r7 with
  | none => none
  | some (v8, r8) =>
  match fieldAt " trig:" Char.isDigit r8 with
  | none => none
  | some (v9, _) =>
  some { id := "Vehicle ID:" ++ String.mk v1
       , lat := "lat:" ++ String.mk v2
       , lng := "lon:" ++ String.mk v3
       , heading := "dir:" ++ String.mk v4
       , speed := "spd:" ++ String.mk v5
       , lock := "lck:" ++ String.mk v6
       , time := "time:" ++ String.mk v7
       , date := "date:" ++ String.mk v8
       , status := "trig:" ++ String.mk v9 }

/-- Embedding of `dataRegexp.FindAllStringSubmatch(vehicleData, -1)` restricted to its
first (leftmost) match: try the pattern at each start offset from the left.
`none` models the nil result whose `[0]` index panics (line 156). -/
def findMatch : List Char → Option ParsedRecord
  | [] => matchFieldsAt []
  | c :: cs =>
    match matchFieldsAt (c :: cs) with
    | some r => some r
    | none => findMatch cs

/-- The literal `eof` record delimiter (update, line 140). -/
def eofTok : List Char := ['e', 'o', 'f']

/-- Attach a character to the head of the first part of a split. -/
def consHead (c : Char) : List (List Char) → List (List Char)
  | [] => [[c]]
  | h :: t => (c :: h) :: t

/-- Go `strings.Split(body, "eof")`: split around each non-overlapping
occurrence of the delimiter, scanning left to right. Always returns at least
one part. -/
def eofSplit : List Char → List (List Char)
  | [] => [[]]
  | 'e' :: 'o' :: 'f' :: rest => [] :: eofSplit rest
  | c :: cs => consHead c (eofSplit cs)

/-- Does `eofTok` occur anywhere in the list? -/
def containsEof : List Char → Bool
  | [] => false
  | c :: cs => eofTok.isPrefixOf (c :: cs) || containsEof cs

/-- The per-cycle work items (update, lines 140-143): split the body on the
delimiter and reslice away the final segment (`vehiclesData[:len-1]`). -/
def vehicleRecords (body : List Char) : List (List Char) :=
  (eofSplit body).dropLast

/-- The no-vehicles warning condition (update, line 146): fires when at most
one work item remains after discarding the end-of-stream segment. -/
def warnsNoVehicles (body : List Char) : Bool :=
  decide ((vehicleRecords body).length ≤ 1)

/-- Records joined by the delimiter, for stating the splitter round-trip. -/
def joinEof : List (List Char) → List Char
  | [] => []
  | [p] => p
  | p :: ps => p ++ eofTok ++ joinEof ps

/-- Euclidean distance in raw degree units (update, lines 337-338):
`math.Sqrt(math.Pow(dLat, 2) + math.Pow(dLng, 2))`. -/
noncomputable def euclid (ulat ulng : ℚ) (c : GoCoord) : ℝ :=
  Real.sqrt (((ulat : ℝ) - (c.lat : ℝ)) ^ 2 + ((ulng : ℝ) - (c.lng : ℝ)) ^ 2)

/-- The nearest-coordinate loop (update, lines 335-343): start from
`math.Inf(0)` and keep the strictly smaller distance. -/
noncomputable def nearestDistance (ulat ulng : ℚ) (coords : List GoCoord) : ℝ≥0∞ :=
  coords.foldl
    (fun nd c =>
      let d := ENNReal.ofReal (euclid ulat ulng c)
      if d < nd then d else nd) ⊤

/-- The closeness penalty (update, lines 344-346): add 50 when the nearest
distance exceeds 0.003 (both float literals are exact in the model). -/
noncomputable def penalizedNearest (u : GoUpdate) (r : GoRoute) : ℝ≥0∞ :=
  let nd := nearestDistance u.latitude u.longitude r.coords
  if (3 / 1000 : ℝ≥0∞) < nd then nd + 50 else nd

/-- One iteration of the inner route loop (update, lines 331-347) acting on
the `routeDistances` map (a total function: a Go map read of an absent key
yields the zero value, and `+=` inserts): a disabled route first receives an
infinite addition, then the penalized nearest distance is accumulated. -/
noncomputable def stepRoute (u : GoUpdate) (m : String → ℝ≥0∞) (r : GoRoute) :
    String → ℝ≥0∞ :=
  let m1 : String → ℝ≥0∞ :=
    if r.enabled then m else fun id => if id = r.id then m id + ⊤ else m id
  fun id => if id = r.id then m1 id + penalizedNearest u r else m1 id

/-- The full accumulation (update, lines 315-349): `routeDistances` starts at
zero for every key and both loops run over it. -/
noncomputable def accumScores (routes : List GoRoute) (upds : List GoUpdate) :
    String → ℝ≥0∞ :=
  upds.foldl (fun m u => routes.foldl (stepRoute u) m) (fun _ => 0)

/-- The key set of the `routeDistances` map after the init loop (lines
315-318): the distinct route ids. -/
def routeKeys (routes : List GoRoute) : List String :=
  (routes.map GoRoute.id).dedup

/-- The minimum-selection loop (update, lines 351-364), parametrised by the
map iteration order: running minimum starting at `math.Inf(0)`, running id
starting at the empty string, and the in-loop override that clears the id
whenever the freshly improved minimum exceeds 5. -/
noncomputable def selLoopGo (avg : String → ℝ≥0∞) :
    ℝ≥0∞ → String → List String → ℝ≥0∞ × String
  | md, mid, [] => (md, mid)
  | md, mid, id :: ids =>
    if avg id < md then
      selLoopGo avg (avg id) (if (5 : ℝ≥0∞) < avg id then "" else id) ids
    else selLoopGo avg md mid ids

/-- The selected route id ("" = not on a route). -/
noncomputable def selectRouteID (avg : String → ℝ≥0∞) (order : List String) : String :=
  (selLoopGo avg ⊤ "" order).2

/-- Minimum of a list of extended reals (`⊤` for the empty list). -/
noncomputable def listMin (l : List ℝ≥0∞) : ℝ≥0∞ := l.foldr min ⊤

/-- Does this candidate attain the value `m`? (Boolean so it can drive
`List.find?`; the decision is classical, as the averages are extended reals.) -/
noncomputable def attains (avg : String → ℝ≥0∞) (m : ℝ≥0∞) (id : String) : Bool :=
  @decide (avg id = m) (Classical.propDecidable _)

/-- Modelled from the spec (design note, section 9): the two-pass selection
that first takes the true minimum average over all candidates and then
applies the absolute 5.0 threshold once to that final minimum, picking the
first candidate attaining it. -/
noncomputable def twoPassSelect (avg : String → ℝ≥0∞) (order : List String) : String :=
  let m := listMin (order.map avg)
  if (5 : ℝ≥0∞) < m then ""
  else (order.find? (attains avg m)).getD ""

/-- Result of `GuessRouteForVehicle`: the zero route with a nil error ("not
on a route"), a found route, or a `GetRoute` lookup error. -/
inductive GuessResult where
  | noRoute : GuessResult
  | onRoute : GoRoute → GuessResult
  | dbErr : GuessResult
deriving DecidableEq

/-- Embedding of `GuessRouteForVehicle` (update, lines 309-378), parametrised by the map
iteration order of the selection loop: fewer than 5 updates from the last 15
minutes (900 seconds) returns the zero route with no error; otherwise every
route id's accumulated distance is averaged over the sample count, the
selection loop runs, an empty winner means "not on a route", and a nonempty
winner is looked up with `GetRoute`. -/
noncomputable def guessRouteForVehicleOrd (db : DB) (vehicleID : Int) (now : Int)
    (order : List String) : GuessResult :=
  let upds := getUpdatesForVehicleSince db vehicleID (now - 900)
  if upds.length < 5 then .noRoute
  else
    let avg : String → ℝ≥0∞ :=
      fun id => accumScores db.routes upds id / (upds.length : ℝ≥0∞)
    let sel := selectRouteID avg order
    if sel = "" then .noRoute
    else
      match getRoute db sel with
      | some r => .onRoute r
      | none => .dbErr

/-- Embedding of `GuessRouteForVehicle` with the canonical key order (Go leaves the map
iteration order unspecified; the selection result is proved independent of it
up to ties). -/
noncomputable def guessRouteForVehicle (db : DB) (vehicleID : Int) (now : Int) :
    GuessResult :=
  guessRouteForVehicleOrd db vehicleID now (routeKeys db.routes)

/-- Outcome of one per-record goroutine: a runtime panic, an early return
(logged, no row created), or a stored update. -/
inductive Outcome where
  | panicked : Outcome
  | skipped : Outcome
  | stored : GoUpdate → Outcome
deriving DecidableEq

/-- The body of the per-record goroutine after the regex match (update,
lines 157-247): strip the tag of each needed capture, resolve the vehicle,
parse the speed, fetch the last stored update, reconstruct the timestamp,
drop the record when the timestamp equals the stored one, guess the route,
parse latitude/longitude (a parse failure there is only logged and leaves
the Go zero value 0), build the update and insert it. -/
noncomputable def handleParsed (db : DB) (now : Int) (rec : ParsedRecord) :
    Outcome × DB :=
  match atoiGo (stripTag rec.id "Vehicle ID:") with
  | none => (.skipped, db)
  | some vehicleID =>
  match getVehicleByITrakID db vehicleID with
  | none => (.skipped, db)
  | some vehicle =>
  match parseFloatGo (stripTag rec.speed "spd:") with
  | none => (.skipped, db)
  | some speedKMH =>
  let speedMPH := kphToMPH speedKMH
  let lastUpd := getLastUpdateForVehicle db vehicle.id
  match generateTimestamp (stripTag rec.time "time:") (stripTag rec.date "date:") with
  | .panicked => (.panicked, db)
  | .failed => (.skipped, db)
  | .ok timestamp =>
  if (match lastUpd with
      | some lu => lu.timestamp == timestamp
      | none => false) then (.skipped, db)
  else
  match guessRouteForVehicle db vehicle.id now with
  | .dbErr => (.skipped, db)
  | g =>
  let route := match g with | .onRoute r => r | _ => emptyRoute
  let latitude := (parseFloatGo (stripTag rec.lat "lat:")).getD 0
  let longitude := (parseFloatGo (stripTag rec.lng "lon:")).getD 0
  let u : GoUpdate :=
    { vehicleID := vehicle.id
    , latitude := latitude
    , longitude := longitude
    , heading := stripTag rec.heading "dir:"
    , speed := speedMPH
    , lock := stripTag rec.lock "lck:"
    , timestamp := timestamp
    , created := now
    , route := route.id }
  (.stored u, createUpdate db u)

/-- One per-record goroutine (update, lines 154-248): a record the regex does
not match leaves `FindAllStringSubmatch` nil, and indexing `[0]` into it is a
runtime panic. -/
noncomputable def processVehicleData (db : DB) (now : Int) (recData : List Char) :
    Outcome × DB :=
  match findMatch recData with
  | none => (.panicked, db)
  | some rec => handleParsed db now rec

/-- One polling cycle after the body has been fetched (update, lines
140-261): split, discard the end-of-stream segment, process every record,
then prune updates created before the cutoff (`time.Now().AddDate(0,-1,0)`,
passed here as the precomputed `cutoff`). `none` models a crashed process: an
unrecovered panic in any per-record goroutine terminates it. The goroutines
are independent per the record they own and are modelled sequentially; no
claim depends on their interleaving. -/
noncomputable def runCycle (db : DB) (now cutoff : Int) (body : List Char) :
    Option (DB × List Outcome) :=
  let recs := vehicleRecords body
  match recs.foldl
      (fun acc r =>
        match acc with
        | none => none
        | some (d, outs) =>
          match processVehicleData d now r with
          | (.panicked, _) => none
          | (o, d2) => some (d2, outs ++ [o])) (some (db, [])) with
  | none => none
  | some (d, outs) => some (deleteUpdatesBefore d cutoff, outs)

/-- Concrete data for witness instances: an enabled route whose single path
coordinate is the origin. -/
def wRoute : GoRoute := { id := "r1", name := "R one", enabled := true, coords := [⟨0, 0⟩] }

/-- A disabled route with the same path, for the disabled-route witnesses. -/
def wRouteDis : GoRoute := { id := "r2", name := "R two", enabled := false, coords := [⟨0, 0⟩] }

/-- A recent update of vehicle 1 sitting exactly on the origin. -/
def wUpd : GoUpdate :=
  { vehicleID := 1, latitude := 0, longitude := 0, heading := "0", speed := 0
  , lock := "0", timestamp := 0, created := 500, route := "" }

/-- Five identical recent samples. -/
def wUpds : List GoUpdate := [wUpd, wUpd, wUpd, wUpd, wUpd]

/-- A database with one known vehicle (iTrak id 1), the two witness routes,
and the five recent samples. -/
def wDB : DB :=
  { vehicles := [{ id := 1, itrakID := 1, name := "Bus 1", enabled := true }]
  , routes := [wRoute, wRouteDis]
  , updates := wUpds }

/-- A well-formed feed record (vehicle 1) with event time 2017-11-12T09:19:02Z. -/
def recOldStr : String :=
  "Vehicle ID:1 lat:1 lon:2 dir:90 spd:10 lck:1 time:91902 date:11122017 trig:1"

/-- The named captures the feed regex extracts from recOldStr. -/
def recP : ParsedRecord :=
  { id := "Vehicle ID:1", lat := "lat:1", lng := "lon:2", heading := "dir:90"
  , speed := "spd:10", lock := "lck:1", time := "time:91902", date := "date:11122017"
  , status := "trig:1" }

/-- A malformed record: it does not match the field grammar at any offset. -/
def recBadStr : String := "junk"

/-- A stored update for vehicle 1 whose event timestamp is
2020-01-01T22:01:20Z, strictly later than recOldStr's. -/
def uStored2020 : GoUpdate :=
  { vehicleID := 1, latitude := 0, longitude := 0, heading := "0", speed := 0
  , lock := "0", timestamp := goTimeDate 2020 1 1 22 1 20, created := 500, route := "" }

/-- A database holding vehicle 1 and that stored update. -/
def dbC1 : DB :=
  { vehicles := [{ id := 1, itrakID := 1, name := "Bus 1", enabled := true }]
  , routes := [], updates := [uStored2020] }

/-- A response body with one malformed and one well-formed record. -/
def bodyC2 : String := recBadStr ++ "eof" ++ recOldStr ++ "eof"

/-- A record whose lat and lon values pass the regex character class but fail
numeric parsing. -/
def recBadLatStr : String :=
  "Vehicle ID:1 lat:-- lon:1.2.3 dir:90 spd:10 lck:1 time:91902 date:11122017 trig:1"

/-- The named captures the feed regex extracts from recBadLatStr. -/
def recPBadLat : ParsedRecord :=
  { id := "Vehicle ID:1", lat := "lat:--", lng := "lon:1.2.3", heading := "dir:90"
  , speed := "spd:10", lock := "lck:1", time := "time:91902", date := "date:11122017"
  , status := "trig:1" }

theorem generateTimestamp_example1 :
    generateTimestamp "91902" "11122017" = .ok (goTimeDate 2017 11 12 9 19 2) := by
  decide

theorem generateTimestamp_anchor1 :
    goTimeDate 2017 11 12 9 19 2 - unixEpoch = 1510478342 := by decide

theorem generateTimestamp_example2 :
    generateTimestamp "220120" "01012020" = .ok (goTimeDate 2020 1 1 22 1 20) := by
  decide

theorem generateTimestamp_anchor2 :
    goTimeDate 2020 1 1 22 1 20 - unixEpoch = 1577916080 := by decide

theorem goSlice_ok (s : String) (lo hi : Int) (h1 : 0 ≤ lo) (h2 : lo ≤ hi)
    (h3 : hi ≤ (s.length : Int)) :
    goSlice s lo hi = .ok (String.mk ((s.data.drop lo.toNat).take (hi - lo).toNat)) := by
  unfold goSlice
  rw [if_pos ⟨h1, h2, h3⟩]

theorem isDigit_ne_plus {c : Char} (h : c.isDigit = true) : ¬ c = '+' := by
  intro he
  subst he
  simp at h

theorem isDigit_ne_minus {c : Char} (h : c.isDigit = true) : ¬ c = '-' := by
  intro he
  subst he
  simp at h

theorem atoiGo_digits (l : List Char) (hd : l.all Char.isDigit = true) (hne : l ≠ []) :
    atoiGo (String.mk l) = some (digitsVal l) := by
  unfold atoiGo
  match l, hne with
  | c :: cs, _ =>
    have hc : c.isDigit = true := by
      have := List.all_eq_true.mp hd c (List.mem_cons_self c cs)
      simpa using this
    simp only [if_neg (isDigit_ne_plus hc), if_neg (isDigit_ne_minus hc), hd, if_pos]

theorem generateTimestamp_digits (t d : String)
    (ht : t.data.all Char.isDigit = true) (hd : d.data.all Char.isDigit = true)
    (hlt : 5 ≤ t.length) (hld : d.length = 8) :
    generateTimestamp t d =
      .ok (goTimeDate (digitsVal (d.data.drop 4))
            ((digitsVal (d.data.take 2) - 1).emod 12 + 1)
            (digitsVal ((d.data.drop 2).take 2))
            (digitsVal (t.data.take (t.length - 4)))
            (digitsVal ((t.data.drop (t.length - 4)).take 2))
            (digitsVal (t.data.drop (t.length - 2)))) := by
  have hdl : d.data.length = 8 := hld
  have htl : 5 ≤ t.data.length := hlt
  have hdig : ∀ l : List Char, l.Sublist d.data → l.all Char.isDigit = true := by
    intro l hl
    rw [List.all_eq_true] at hd ⊢
    exact fun c hc => hd c (hl.mem hc)
  have htig : ∀ l : List Char, l.Sublist t.data → l.all Char.isDigit = true := by
    intro l hl
    rw [List.all_eq_true] at ht ⊢
    exact fun c hc => ht c (hl.mem hc)
  have hdi : (d.length : Int) = 8 := by exact_mod_cast congrArg Nat.cast hld
  have hne : ∀ (l : List Char) (n : ℕ), l.length = n → n ≠ 0 → l ≠ [] := by
    intro l n hl hn he
    rw [he] at hl
    simp at hl
    omega
  have d1 : atoiGo (String.mk ((d.data.drop 2).take 2)) =
      some (digitsVal ((d.data.drop 2).take 2)) :=
    atoiGo_digits _ (hdig _ ((List.take_sublist _ _).trans (List.drop_sublist _ _)))
      (hne _ 2 (by rw [List.length_take, List.length_drop, hdl]; omega) (by omega))
  have d2 : atoiGo (String.mk (d.data.drop 4)) = some (digitsVal (d.data.drop 4)) :=
    atoiGo_digits _ (hdig _ (List.drop_sublist _ _))
      (hne _ 4 (by rw [List.length_drop, hdl]) (by omega))
  have d3 : atoiGo (String.mk (d.data.take 2)) = some (digitsVal (d.data.take 2)) :=
    atoiGo_digits _ (hdig _ (List.take_sublist _ _))
      (hne _ 2 (by rw [List.length_take, hdl]; omega) (by omega))
  have t1 : atoiGo (String.mk (t.data.take (t.length - 4))) =
      some (digitsVal (t.data.take (t.length - 4))) :=
    atoiGo_digits _ (htig _ (List.take_sublist _ _))
      (hne _ (t.length - 4) (by rw [List.length_take]; have h9 : t.length = t.data.length := rfl; omega) (by omega))
  have t2 : atoiGo (String.mk ((t.data.drop (t.length - 4)).take 2)) =
      some (digitsVal ((t.data.drop (t.length - 4)).take 2)) :=
    atoiGo_digits _ (htig _ ((List.take_sublist _ _).trans (List.drop_sublist _ _)))
      (hne _ 2 (by rw [List.length_take, List.length_drop]; have h9 : t.length = t.data.length := rfl; omega) (by omega))
  have t3 : atoiGo (String.mk (t.data.drop (t.length - 2))) =
      some (digitsVal (t.data.drop (t.length - 2))) :=
    atoiGo_digits _ (htig _ (List.drop_sublist _ _))
      (hne _ 2 (by rw [List.length_drop]; have h9 : t.length = t.data.length := rfl; omega) (by omega))
  have c1 : ((2 : Int)).toNat = 2 := rfl
  have c2 : ((4 : Int) - 2).toNat = 2 := rfl
  have c3 : ((8 : Int) - 4).toNat = 4 := rfl
  have c4 : ((0 : Int)).toNat = 0 := rfl
  have c5 : ((2 : Int) - 0).toNat = 2 := rfl
  have c6 : ((4 : Int)).toNat = 4 := rfl
  have e0 : ((t.length : Int) - 4 - 0).toNat = t.length - 4 := by omega
  have e1 : ((t.length : Int) - 4).toNat = t.length - 4 := by omega
  have e2 : ((t.length : Int) - 2 - ((t.length : Int) - 4)).toNat = 2 := by omega
  have e3 : ((t.length : Int) - 2).toNat = t.length - 2 := by omega
  have e4 : ((t.length : Int) - ((t.length : Int) - 2)).toNat = 2 := by omega
  have hy : (d.data.drop 4).take 4 = d.data.drop 4 :=
    List.take_of_length_le (by rw [List.length_drop, hdl])
  have hz : (t.data.drop (t.length - 2)).take 2 = t.data.drop (t.length - 2) :=
    List.take_of_length_le (by
      rw [List.length_drop]
      have h9 : t.length = t.data.length := rfl
      omega)
  unfold generateTimestamp
  simp only [goSlice_ok d 2 4 (by omega) (by omega) (by omega),
    goSlice_ok d 4 8 (by omega) (by omega) (by omega),
    goSlice_ok d 0 2 (by omega) (by omega) (by omega),
    goSlice_ok t 0 ((t.length : Int) - 4) (by omega) (by omega) (by omega),
    goSlice_ok t ((t.length : Int) - 4) ((t.length : Int) - 2) (by omega) (by omega) (by omega),
    goSlice_ok t ((t.length : Int) - 2) (t.length : Int) (by omega) (by omega) (by omega),
    c1, c2, c3, c4, c5, c6, e0, e1, e2, e3, e4, hy, hz, List.drop_zero]
  simp only [d1, d2, d3, t1, t2, t3]

/-- C3: generateTimestamp maps the time token "91902" with date token
"11122017" to the UTC instant 2017-11-12T09:19:02Z (Unix 1510478342) and
"220120" with "01012020" to 2020-01-01T22:01:20Z (Unix 1577916080); and for
every all-digit date token of form MMDDYYYY with month 01-12 and all-digit
time token of form [H]HMMSS (length 5 or 6), it returns (with no error; the
function is pure by construction) the UTC time whose year, month and day are
the date slices and whose minute and second are the trailing 4 characters of
the time token, the hour being everything before them. -/
theorem c3_generateTimestamp_reconstruction :
    (generateTimestamp "91902" "11122017" = .ok (goTimeDate 2017 11 12 9 19 2) ∧
      goTimeDate 2017 11 12 9 19 2 - unixEpoch = 1510478342) ∧
    (generateTimestamp "220120" "01012020" = .ok (goTimeDate 2020 1 1 22 1 20) ∧
      goTimeDate 2020 1 1 22 1 20 - unixEpoch = 1577916080) ∧
    ∀ t d : String, t.data.all Char.isDigit = true → d.data.all Char.isDigit = true →
      (t.length = 5 ∨ t.length = 6) → d.length = 8 →
      1 ≤ digitsVal (d.data.take 2) → digitsVal (d.data.take 2) ≤ 12 →
      generateTimestamp t d =
        .ok (goTimeDate (digitsVal (d.data.drop 4))
              (digitsVal (d.data.take 2))
              (digitsVal ((d.data.drop 2).take 2))
              (digitsVal (t.data.take (t.length - 4)))
              (digitsVal ((t.data.drop (t.length - 4)).take 2))
              (digitsVal (t.data.drop (t.length - 2)))) := by
  refine ⟨⟨by decide, by decide⟩, ⟨by decide, by decide⟩, ?_⟩
  intro t d ht hd hlt hld hm1 hm2
  rw [generateTimestamp_digits t d ht hd (by omega) hld]
  have : (digitsVal (d.data.take 2) - 1).emod 12 + 1 = digitsVal (d.data.take 2) := by
    have hmod : (digitsVal (d.data.take 2) - 1).emod 12 = (digitsVal (d.data.take 2) - 1) % 12 :=
      rfl
    rw [hmod]
    omega
  rw [this]

theorem c3_witness :
    ("220120".data.all Char.isDigit = true) ∧
    ("01012020".data.all Char.isDigit = true) ∧
    ("220120".length = 5 ∨ "220120".length = 6) ∧
    ("01012020".length = 8) ∧
    (1 ≤ digitsVal ("01012020".data.take 2)) ∧
    (digitsVal ("01012020".data.take 2) ≤ 12) ∧
    generateTimestamp "220120" "01012020" =
      .ok (goTimeDate (digitsVal ("01012020".data.drop 4))
            (digitsVal ("01012020".data.take 2))
            (digitsVal (("01012020".data.drop 2).take 2))
            (digitsVal ("220120".data.take ("220120".length - 4)))
            (digitsVal (("220120".data.drop ("220120".length - 4)).take 2))
            (digitsVal ("220120".data.drop ("220120".length - 2)))) :=
  ⟨by decide, by decide, by decide, by decide, by decide, by decide,
    c3_generateTimestamp_reconstruction.2.2 "220120" "01012020"
      (by decide) (by decide) (by decide) (by decide) (by decide) (by decide)⟩

/-- C4 counterexample: the claim says generateTimestamp is total on all pairs
of input strings including tokens shorter than 4 or 8 characters, never
panicking; but on the empty tokens the very first slice `itrakDate[2:4]` is
out of range, which panics in Go. -/
theorem c4_counterexample : generateTimestamp "" "" = .panicked := by decide

/-- C4 amended: generateTimestamp is total (returns a timestamp or an error
deterministically, with no side effect and no panic) on every pair of tokens
with time token at least 4 characters and date token at least 8 characters,
including non-numeric ones; for shorter tokens a slice is out of range and
the function panics. -/
theorem c4_generateTimestamp_totality (t d : String)
    (hlt : 4 ≤ t.length) (hld : 8 ≤ d.length) :
    generateTimestamp t d = .failed ∨ ∃ z, generateTimestamp t d = .ok z := by
  have hti : (4 : Int) ≤ (t.length : Int) := by exact_mod_cast hlt
  have hdi : (8 : Int) ≤ (d.length : Int) := by exact_mod_cast hld
  unfold generateTimestamp
  rw [goSlice_ok d 2 4 (by omega) (by omega) (by omega),
    goSlice_ok d 4 8 (by omega) (by omega) (by omega),
    goSlice_ok d 0 2 (by omega) (by omega) (by omega),
    goSlice_ok t 0 ((t.length : Int) - 4) (by omega) (by omega) (by omega),
    goSlice_ok t ((t.length : Int) - 4) ((t.length : Int) - 2) (by omega) (by omega) (by omega),
    goSlice_ok t ((t.length : Int) - 2) (t.length : Int) (by omega) (by omega) (by omega)]
  dsimp only
  repeat' split
  all_goals first | exact Or.inl rfl | exact Or.inr ⟨_, rfl⟩

theorem c4_witness :
    (4 ≤ "abcd".length) ∧ (8 ≤ "abcdwxyz".length) ∧
    (generateTimestamp "abcd" "abcdwxyz" = .failed ∨
      ∃ z, generateTimestamp "abcd" "abcdwxyz" = .ok z) :=
  ⟨by decide, by decide, c4_generateTimestamp_totality "abcd" "abcdwxyz" (by decide) (by decide)⟩

/-- C5: whenever a vehicle has fewer than 5 stored updates from the last 15
minutes, GuessRouteForVehicle returns the zero route with a nil error ("no
route", not an error) before scoring, for every database, every vehicle and
every map iteration order. -/
theorem c5_too_few_updates_no_route (db : DB) (vehicleID now : Int) (order : List String)
    (h : (getUpdatesForVehicleSince db vehicleID (now - 900)).length < 5) :
    guessRouteForVehicleOrd db vehicleID now order = .noRoute := by
  unfold guessRouteForVehicleOrd
  rw [if_pos h]

theorem c5_witness :
    ((getUpdatesForVehicleSince ⟨[], [], []⟩ 1 (0 - 900)).length < 5) ∧
    guessRouteForVehicleOrd ⟨[], [], []⟩ 1 0 ["a", "b"] = .noRoute :=
  ⟨by decide, c5_too_few_updates_no_route ⟨[], [], []⟩ 1 0 ["a", "b"] (by decide)⟩

theorem consHead_ne_nil (c : Char) (l : List (List Char)) : consHead c l ≠ [] := by
  cases l <;> simp [consHead]

theorem eofSplit_pos (c : Char) (cs : List Char)
    (h : eofTok.isPrefixOf (c :: cs) = true) :
    eofSplit (c :: cs) = [] :: eofSplit (cs.drop 2) := by
  obtain ⟨t, ht⟩ := List.isPrefixOf_iff_prefix.mp h
  rw [show eofTok ++ t = 'e' :: 'o' :: 'f' :: t from rfl] at ht
  have h1 : c = 'e' := by
    have := congrArg (fun l => l.headI) ht
    simpa using this.symm
  have h2 : cs = 'o' :: 'f' :: t := by
    have := congrArg (fun l => l.tail) ht
    simpa using this.symm
  subst h1
  subst h2
  rfl

theorem eofSplit_neg (c : Char) (cs : List Char)
    (h : eofTok.isPrefixOf (c :: cs) = false) :
    eofSplit (c :: cs) = consHead c (eofSplit cs) :=
  eofSplit.eq_3 c cs (fun rest hc hcs => by
    subst hc
    subst hcs
    simp [eofTok, List.isPrefixOf] at h)

theorem eofSplit_ne_nil (s : List Char) : eofSplit s ≠ [] := by
  cases s with
  | nil => simp [eofSplit]
  | cons c cs =>
    rcases hb : eofTok.isPrefixOf (c :: cs) with _ | _
    · rw [eofSplit_neg c cs hb]
      exact consHead_ne_nil c _
    · rw [eofSplit_pos c cs hb]
      simp

theorem not_prefix_boundary (c : Char) (a rest : List Char)
    (h : containsEof (c :: a) = false) :
    eofTok.isPrefixOf (c :: (a ++ eofTok ++ rest)) = false := by
  rw [containsEof, Bool.or_eq_false_iff] at h
  cases a with
  | nil => simp [eofTok, List.isPrefixOf]
  | cons x a2 =>
    cases a2 with
    | nil => simp [eofTok, List.isPrefixOf]
    | cons y a3 =>
      have h1 := h.1
      simp only [eofTok, List.isPrefixOf, List.cons_append] at h1 ⊢
      exact h1

theorem eofSplit_boundary (a rest : List Char) (h : containsEof a = false) :
    eofSplit (a ++ eofTok ++ rest) = a :: eofSplit rest := by
  induction a with
  | nil =>
    rw [show (([] : List Char) ++ eofTok ++ rest) = 'e' :: 'o' :: 'f' :: rest by rfl]
    rfl
  | cons c a2 ih =>
    have h2 : containsEof a2 = false := by
      rw [containsEof, Bool.or_eq_false_iff] at h
      exact h.2
    rw [show ((c :: a2) ++ eofTok ++ rest) = c :: (a2 ++ eofTok ++ rest) by simp]
    rw [eofSplit_neg c _ (not_prefix_boundary c a2 rest h)]
    rw [ih h2]
    rfl

theorem eofSplit_clean (a : List Char) (h : containsEof a = false) :
    eofSplit a = [a] := by
  induction a with
  | nil => simp [eofSplit]
  | cons c a2 ih =>
    rw [containsEof, Bool.or_eq_false_iff] at h
    rw [eofSplit_neg c a2 h.1]
    rw [ih h.2]
    rfl

theorem joinEof_cons (p : List Char) (ps : List (List Char)) (h : ps ≠ []) :
    joinEof (p :: ps) = p ++ eofTok ++ joinEof ps := by
  cases ps with
  | nil => exact absurd rfl h
  | cons q qs => rfl

theorem eofSplit_join (recs : List (List Char)) (tail : List Char)
    (hrecs : ∀ r ∈ recs, containsEof r = false) (htail : containsEof tail = false) :
    eofSplit (joinEof (recs ++ [tail])) = recs ++ [tail] := by
  induction recs with
  | nil => simpa using eofSplit_clean tail htail
  | cons r recs2 ih =>
    rw [List.cons_append, joinEof_cons r (recs2 ++ [tail]) (by simp)]
    rw [eofSplit_boundary r (joinEof (recs2 ++ [tail]))
      (hrecs r (List.mem_cons_self r recs2))]
    rw [ih (fun x hx => hrecs x (List.mem_cons_of_mem r hx))]

/-- C9: the record splitter splits the response body on the literal delimiter
"eof" and always discards the final split segment regardless of its
(delimiter-free) content; and whenever the split yields fewer than two parts
in total, the warning fires, the cycle proceeds with zero per-vehicle work
items, and the cycle completes normally (only pruning runs). -/
theorem c9_splitter_discards_final_segment :
    (∀ (recs : List (List Char)) (tail : List Char),
      (∀ r ∈ recs, containsEof r = false) → containsEof tail = false →
      vehicleRecords (joinEof (recs ++ [tail])) = recs) ∧
    (∀ (db : DB) (now cutoff : Int) (body : List Char),
      (eofSplit body).length < 2 →
      warnsNoVehicles body = true ∧ vehicleRecords body = [] ∧
      runCycle db now cutoff body = some (deleteUpdatesBefore db cutoff, [])) := by
  constructor
  · intro recs tail hrecs htail
    unfold vehicleRecords
    rw [eofSplit_join recs tail hrecs htail]
    exact List.dropLast_concat
  · intro db now cutoff body hlen
    have h1 : (eofSplit body).length = 1 := by
      have := eofSplit_ne_nil body
      have : 0 < (eofSplit body).length := List.length_pos.mpr this
      omega
    obtain ⟨x, hx⟩ := List.length_eq_one.mp h1
    have hrec : vehicleRecords body = [] := by
      unfold vehicleRecords
      rw [hx]
      rfl
    refine ⟨?_, hrec, ?_⟩
    · unfold warnsNoVehicles
      rw [hrec]
      rfl
    · unfold runCycle
      rw [hrec]
      rfl

theorem c9_witness :
    ((∀ r ∈ ["recA".data, "recB".data], containsEof r = false) ∧
      containsEof "END".data = false ∧
      vehicleRecords (joinEof (["recA".data, "recB".data] ++ ["END".data])) =
        ["recA".data, "recB".data]) ∧
    ((eofSplit "no delimiter here".data).length < 2 ∧
      warnsNoVehicles "no delimiter here".data = true ∧
      vehicleRecords "no delimiter here".data = [] ∧
      runCycle ⟨[], [], []⟩ 0 0 "no delimiter here".data =
        some (deleteUpdatesBefore ⟨[], [], []⟩ 0, [])) :=
  ⟨⟨by decide, by decide,
      c9_splitter_discards_final_segment.1 ["recA".data, "recB".data] "END".data
        (by decide) (by decide)⟩,
    by decide,
    (c9_splitter_discards_final_segment.2 ⟨[], [], []⟩ 0 0 "no delimiter here".data
      (by decide)).1,
    (c9_splitter_discards_final_segment.2 ⟨[], [], []⟩ 0 0 "no delimiter here".data
      (by decide)).2.1,
    (c9_splitter_discards_final_segment.2 ⟨[], [], []⟩ 0 0 "no delimiter here".data
      (by decide)).2.2⟩

/-- Per-update, per-route contribution to the accumulator: the infinite
disabled penalty plus the penalized nearest distance. -/
noncomputable def contrib (u : GoUpdate) (r : GoRoute) : ℝ≥0∞ :=
  (if r.enabled then 0 else ⊤) + penalizedNearest u r

/-- The per-update term as the claim words it: the minimum Euclidean distance,
increased by exactly 50 when it exceeds 0.003 degrees, and increased by
positive infinity when the route is disabled. -/
noncomputable def specTerm (r : GoRoute) (u : GoUpdate) : ℝ≥0∞ :=
  let nd := nearestDistance u.latitude u.longitude r.coords
  nd + (if (3 / 1000 : ℝ≥0∞) < nd then 50 else 0) + (if r.enabled then 0 else ⊤)

theorem contrib_eq_specTerm (u : GoUpdate) (r : GoRoute) :
    contrib u r = specTerm r u := by
  unfold contrib specTerm penalizedNearest
  dsimp only
  rcases h : decide ((3 / 1000 : ℝ≥0∞) < nearestDistance u.latitude u.longitude r.coords)
    with _ | _
  · rw [if_neg (of_decide_eq_false h), if_neg (of_decide_eq_false h)]
    ring
  · rw [if_pos (of_decide_eq_true h), if_pos (of_decide_eq_true h)]
    ring

theorem stepRoute_apply (u : GoUpdate) (m : String → ℝ≥0∞) (r : GoRoute) (id : String) :
    stepRoute u m r id = m id + (if id = r.id then contrib u r else 0) := by
  unfold stepRoute contrib
  rcases hr : r.enabled with _ | _
  · simp only [Bool.false_eq_true, if_false]
    by_cases hid : id = r.id
    · rw [if_pos hid, if_pos hid, if_pos hid]
      ring
    · rw [if_neg hid, if_neg hid, if_neg hid]
      ring
  · simp only [if_true]
    by_cases hid : id = r.id
    · rw [if_pos hid, if_pos hid]
      ring
    · rw [if_neg hid, if_neg hid]
      ring

theorem foldl_stepRoute (u : GoUpdate) (routes : List GoRoute)
    (m : String → ℝ≥0∞) (id : String) :
    (routes.foldl (stepRoute u) m) id =
      m id + ((routes.map (fun r => if id = r.id then contrib u r else 0)).sum) := by
  induction routes generalizing m with
  | nil => simp
  | cons r rs ih =>
    rw [List.foldl_cons, ih, stepRoute_apply]
    rw [List.map_cons, List.sum_cons]
    ring

theorem accumScores_apply (routes : List GoRoute) (upds : List GoUpdate) (id : String) :
    accumScores routes upds id =
      (upds.map (fun u =>
        ((routes.map (fun r => if id = r.id then contrib u r else 0)).sum))).sum := by
  unfold accumScores
  induction upds using List.reverseRecOn with
  | nil => simp
  | append_singleton us u ih =>
    rw [List.foldl_append, List.foldl_cons, List.foldl_nil, foldl_stepRoute, ih]
    rw [List.map_append, List.sum_append]
    simp

theorem routes_sum_single (routes : List GoRoute) (r : GoRoute) (u : GoUpdate)
    (hnodup : (routes.map GoRoute.id).Nodup) (hmem : r ∈ routes) :
    ((routes.map (fun r2 => if r.id = r2.id then contrib u r2 else 0)).sum) =
      contrib u r := by
  induction routes with
  | nil => cases hmem
  | cons r0 rs ih =>
    rw [List.map_cons, List.sum_cons]
    rw [List.map_cons, List.nodup_cons] at hnodup
    rcases List.mem_cons.mp hmem with h0 | h0
    · subst h0
      rw [if_pos rfl]
      have hz : ((rs.map (fun r2 => if r.id = r2.id then contrib u r2 else 0)).sum) = 0 := by
        apply List.sum_eq_zero
        intro x hx
        obtain ⟨r2, hr2, hr2x⟩ := List.mem_map.mp hx
        rw [← hr2x, if_neg]
        intro he
        exact hnodup.1 (he ▸ List.mem_map_of_mem GoRoute.id hr2)
      rw [hz]
      ring
    · have hne : ¬ r.id = r0.id := by
        intro he
        exact hnodup.1 (he ▸ List.mem_map_of_mem GoRoute.id h0)
      rw [if_neg hne, ih hnodup.2 h0]
      ring

theorem accumScores_eq_sum (routes : List GoRoute) (upds : List GoUpdate) (r : GoRoute)
    (hnodup : (routes.map GoRoute.id).Nodup) (hmem : r ∈ routes) :
    accumScores routes upds r.id = (upds.map (specTerm r)).sum := by
  rw [accumScores_apply]
  congr 1
  apply List.map_congr_left
  intro u _
  rw [routes_sum_single routes r u hnodup hmem, contrib_eq_specTerm]

theorem listMin_cons (avg : String → ℝ≥0∞) (id : String) (ids : List String) :
    listMin ((id :: ids).map avg) = min (avg id) (listMin (ids.map avg)) := by
  simp [listMin]

theorem selLoopGo_fst (avg : String → ℝ≥0∞) (ids : List String) :
    ∀ (md : ℝ≥0∞) (mid : String),
      (selLoopGo avg md mid ids).1 = min (listMin (ids.map avg)) md := by
  induction ids with
  | nil =>
    intro md mid
    simp [selLoopGo, listMin]
  | cons id ids ih =>
    intro md mid
    rw [selLoopGo, listMin_cons]
    by_cases h1 : avg id < md
    · rw [if_pos h1, ih]
      rw [min_comm (avg id) (listMin (ids.map avg)), min_assoc]
      rw [min_eq_left (le_of_lt h1)]
    · rw [if_neg h1, ih]
      rw [min_comm (avg id) (listMin (ids.map avg)), min_assoc]
      rw [min_eq_right (not_lt.mp h1)]

theorem attains_eq_true (avg : String → ℝ≥0∞) (m : ℝ≥0∞) (id : String) :
    attains avg m id = true ↔ avg id = m := by
  unfold attains
  exact ⟨fun h => @of_decide_eq_true (avg id = m) (Classical.propDecidable _) h,
    fun h => @decide_eq_true (avg id = m) (Classical.propDecidable _) h⟩

theorem attains_eq_false (avg : String → ℝ≥0∞) (m : ℝ≥0∞) (id : String)
    (h : ¬ avg id = m) : attains avg m id = false := by
  unfold attains
  exact @decide_eq_false (avg id = m) (Classical.propDecidable _) h

theorem selLoopGo_snd (avg : String → ℝ≥0∞) (ids : List String) :
    ∀ (md : ℝ≥0∞) (mid : String),
      (selLoopGo avg md mid ids).2 =
        if listMin (ids.map avg) < md then
          (if (5 : ℝ≥0∞) < listMin (ids.map avg) then ""
           else (ids.find? (attains avg (listMin (ids.map avg)))).getD "")
        else mid := by
  induction ids with
  | nil =>
    intro md mid
    rw [selLoopGo]
    rw [if_neg (by simp [listMin])]
  | cons id ids ih =>
    intro md mid
    rw [selLoopGo, listMin_cons]
    by_cases h1 : avg id < md
    · rw [if_pos h1, ih]
      have hmlt : min (avg id) (listMin (ids.map avg)) < md :=
        lt_of_le_of_lt (min_le_left _ _) h1
      rw [if_pos hmlt]
      by_cases h2 : listMin (ids.map avg) < avg id
      · rw [if_pos h2]
        rw [min_eq_right (le_of_lt h2)]
        by_cases h5 : (5 : ℝ≥0∞) < listMin (ids.map avg)
        · rw [if_pos h5, if_pos h5]
        · rw [if_neg h5, if_neg h5]
          rw [List.find?_cons_of_neg _ (by
            rw [attains_eq_false avg _ id (ne_of_gt h2)]
            simp)]
      · rw [if_neg h2]
        rw [min_eq_left (not_lt.mp h2)]
        rw [List.find?_cons_of_pos _ (by
          rw [attains_eq_true])]
        simp
    · rw [if_neg h1, ih]
      have hmd : md ≤ avg id := not_lt.mp h1
      by_cases h2 : listMin (ids.map avg) < md
      · rw [if_pos h2]
        have hlta : listMin (ids.map avg) < avg id := lt_of_lt_of_le h2 hmd
        have hmin : min (avg id) (listMin (ids.map avg)) = listMin (ids.map avg) :=
          min_eq_right (le_of_lt hlta)
        rw [hmin, if_pos h2]
        by_cases h5 : (5 : ℝ≥0∞) < listMin (ids.map avg)
        · rw [if_pos h5, if_pos h5]
        · rw [if_neg h5, if_neg h5]
          rw [List.find?_cons_of_neg _ (by
            rw [attains_eq_false avg _ id (ne_of_gt hlta)]
            simp)]
      · rw [if_neg h2]
        rw [if_neg (by
          rw [min_lt_iff]
          rintro (ha | hb)
          · exact h1 ha
          · exact h2 hb)]

theorem listMin_top_or_mem (l : List ℝ≥0∞) : listMin l = ⊤ ∨ listMin l ∈ l := by
  induction l with
  | nil => exact Or.inl rfl
  | cons a l ih =>
    have hc : listMin (a :: l) = min a (listMin l) := by simp [listMin]
    rcases le_total a (listMin l) with h | h
    · rw [hc, min_eq_left h]
      exact Or.inr (List.mem_cons_self a l)
    · rw [hc, min_eq_right h]
      rcases ih with h2 | h2
      · exact Or.inl h2
      · exact Or.inr (List.mem_cons_of_mem a h2)

theorem listMin_le_of_mem {l : List ℝ≥0∞} {x : ℝ≥0∞} (h : x ∈ l) : listMin l ≤ x := by
  induction l with
  | nil => cases h
  | cons a l ih =>
    have hc : listMin (a :: l) = min a (listMin l) := by simp [listMin]
    rw [hc]
    rcases List.mem_cons.mp h with h2 | h2
    · rw [h2]
      exact min_le_left _ _
    · exact le_trans (min_le_right _ _) (ih h2)

theorem le_listMin {l : List ℝ≥0∞} {c : ℝ≥0∞} (h : ∀ x ∈ l, c ≤ x) : c ≤ listMin l := by
  induction l with
  | nil => exact le_top
  | cons a l ih =>
    have hc : listMin (a :: l) = min a (listMin l) := by simp [listMin]
    rw [hc, le_min_iff]
    exact ⟨h a (List.mem_cons_self a l), ih (fun x hx => h x (List.mem_cons_of_mem a hx))⟩

theorem listMin_perm {l1 l2 : List ℝ≥0∞} (h : l1.Perm l2) : listMin l1 = listMin l2 :=
  le_antisymm
    (le_listMin (fun x hx => listMin_le_of_mem (h.mem_iff.mpr hx)))
    (le_listMin (fun x hx => listMin_le_of_mem (h.mem_iff.mp hx)))

theorem five_lt_top : (5 : ℝ≥0∞) < ⊤ := by
  simp [lt_top_iff_ne_top]

theorem selectRouteID_char (avg : String → ℝ≥0∞) (order : List String) :
    selectRouteID avg order =
      if (5 : ℝ≥0∞) < listMin (order.map avg) then ""
      else (order.find? (attains avg (listMin (order.map avg)))).getD "" := by
  unfold selectRouteID
  rw [selLoopGo_snd]
  by_cases h : listMin (order.map avg) < ⊤
  · rw [if_pos h]
  · rw [if_neg h]
    have hm : listMin (order.map avg) = ⊤ := top_le_iff.mp (not_lt.mp h)
    rw [hm, if_pos five_lt_top]

theorem selectRouteID_attains (avg : String → ℝ≥0∞) (order : List String)
    (hsel : selectRouteID avg order ≠ "") :
    avg (selectRouteID avg order) = listMin (order.map avg) ∧
    selectRouteID avg order ∈ order ∧
    ¬ (5 : ℝ≥0∞) < listMin (order.map avg) := by
  rw [selectRouteID_char] at hsel ⊢
  by_cases h5 : (5 : ℝ≥0∞) < listMin (order.map avg)
  · rw [if_pos h5] at hsel
    exact absurd rfl hsel
  · rw [if_neg h5] at hsel ⊢
    rcases hfo : order.find? (attains avg (listMin (order.map avg))) with _ | x
    · rw [hfo] at hsel
      exact absurd rfl hsel
    · simp only [Option.getD_some]
      refine ⟨?_, List.mem_of_find?_eq_some hfo, h5⟩
      exact (attains_eq_true avg _ x).mp (List.find?_some hfo)

theorem selectRouteID_empty_iff (avg : String → ℝ≥0∞) (order : List String)
    (hne : "" ∉ order) :
    selectRouteID avg order = "" ↔ (5 : ℝ≥0∞) < listMin (order.map avg) := by
  by_cases h5 : (5 : ℝ≥0∞) < listMin (order.map avg)
  · rw [selectRouteID_char, if_pos h5]
    exact iff_of_true rfl h5
  · have hmlt : listMin (order.map avg) < ⊤ := lt_of_le_of_lt (not_lt.mp h5) five_lt_top
    have hmem : listMin (order.map avg) ∈ order.map avg :=
      (listMin_top_or_mem _).resolve_left hmlt.ne
    obtain ⟨id, hid, hidm⟩ := List.mem_map.mp hmem
    have hfind : ¬ order.find? (attains avg (listMin (order.map avg))) = none := by
      intro hfo
      exact (List.find?_eq_none.mp hfo id hid)
        ((attains_eq_true avg _ id).mpr hidm)
    rcases hfo : order.find? (attains avg (listMin (order.map avg))) with _ | x
    · exact absurd hfo hfind
    · rw [selectRouteID_char, if_neg h5, hfo]
      simp only [Option.getD_some]
      refine iff_of_false ?_ h5
      intro he
      exact hne (he ▸ List.mem_of_find?_eq_some hfo)

/-- C8: the one-pass minimum-selection loop with its in-loop override computes,
for every assignment of averages and every key order, exactly the two-pass
result (true minimum first, 5.0 threshold applied once, first attaining
candidate); with nonempty route ids it reports "no route" exactly when the
minimum average exceeds 5.0 (which subsumes "no route has a finite average",
as an infinite minimum exceeds 5.0), otherwise it returns a candidate
attaining the minimum; and the outcome is independent of the iteration order
up to ties (emptiness and the attained average are permutation-invariant). -/
theorem c8_one_pass_selection_equals_two_pass (avg : String → ℝ≥0∞) (order : List String)
    (hne : "" ∉ order) :
    selectRouteID avg order = twoPassSelect avg order ∧
    (selectRouteID avg order = "" ↔ (5 : ℝ≥0∞) < listMin (order.map avg)) ∧
    (selectRouteID avg order ≠ "" →
      avg (selectRouteID avg order) = listMin (order.map avg) ∧
      selectRouteID avg order ∈ order) ∧
    (∀ order2, order.Perm order2 →
      (selectRouteID avg order = "" ↔ selectRouteID avg order2 = "") ∧
      (selectRouteID avg order ≠ "" →
        avg (selectRouteID avg order) = avg (selectRouteID avg order2))) := by
  refine ⟨?_, selectRouteID_empty_iff avg order hne, ?_, ?_⟩
  · rw [selectRouteID_char]
    rfl
  · intro hsel
    exact ⟨(selectRouteID_attains avg order hsel).1, (selectRouteID_attains avg order hsel).2.1⟩
  · intro order2 hperm
    have hne2 : "" ∉ order2 := fun h2 => hne (hperm.mem_iff.mpr h2)
    have hmeq : listMin (order.map avg) = listMin (order2.map avg) :=
      listMin_perm (hperm.map avg)
    constructor
    · rw [selectRouteID_empty_iff avg order hne, selectRouteID_empty_iff avg order2 hne2, hmeq]
    · intro hsel
      have hsel2 : selectRouteID avg order2 ≠ "" := by
        rw [Ne, selectRouteID_empty_iff avg order2 hne2, ← hmeq]
        rw [Ne, selectRouteID_empty_iff avg order hne] at hsel
        exact hsel
      rw [(selectRouteID_attains avg order hsel).1,
        (selectRouteID_attains avg order2 hsel2).1, hmeq]

theorem c8_witness :
    ("" ∉ ["a", "b"]) ∧
    (selectRouteID (fun _ => 0) ["a", "b"] = twoPassSelect (fun _ => 0) ["a", "b"] ∧
    (selectRouteID (fun _ => 0) ["a", "b"] = "" ↔
      (5 : ℝ≥0∞) < listMin (["a", "b"].map (fun _ => 0))) ∧
    (selectRouteID (fun _ => 0) ["a", "b"] ≠ "" →
      (fun _ => (0 : ℝ≥0∞)) (selectRouteID (fun _ => 0) ["a", "b"]) =
        listMin (["a", "b"].map (fun _ => 0)) ∧
      selectRouteID (fun _ => 0) ["a", "b"] ∈ ["a", "b"]) ∧
    (∀ order2, (["a", "b"] : List String).Perm order2 →
      (selectRouteID (fun _ => 0) ["a", "b"] = "" ↔ selectRouteID (fun _ => 0) order2 = "") ∧
      (selectRouteID (fun _ => 0) ["a", "b"] ≠ "" →
        (fun _ => (0 : ℝ≥0∞)) (selectRouteID (fun _ => 0) ["a", "b"]) =
          (fun _ => (0 : ℝ≥0∞)) (selectRouteID (fun _ => 0) order2)))) :=
  ⟨by simp,
    c8_one_pass_selection_equals_two_pass (fun _ => 0) ["a", "b"] (by simp)⟩

/-- C6: for at least 5 recent updates, the selection score of each route id
(the accumulated distance divided by the sample count) is exactly the average
over the updates of the claim's per-update term: minimum Euclidean distance to
the route path, plus 50 exactly when that minimum exceeds 0.003, plus
positive infinity when the route is disabled. Route ids are assumed distinct,
as the routes table makes them serial primary keys. -/
theorem c6_score_is_average_of_terms (routes : List GoRoute) (upds : List GoUpdate)
    (r : GoRoute) (hnodup : (routes.map GoRoute.id).Nodup) (hmem : r ∈ routes)
    (hlen : 5 ≤ upds.length) :
    accumScores routes upds r.id / (upds.length : ℝ≥0∞) =
      ((upds.map (specTerm r)).sum) / (upds.length : ℝ≥0∞) := by
  rw [accumScores_eq_sum routes upds r hnodup hmem]

theorem c6_witness :
    (([wRoute].map GoRoute.id).Nodup) ∧ (wRoute ∈ [wRoute]) ∧ (5 ≤ wUpds.length) ∧
    accumScores [wRoute] wUpds wRoute.id / (wUpds.length : ℝ≥0∞) =
      ((wUpds.map (specTerm wRoute)).sum) / (wUpds.length : ℝ≥0∞) :=
  ⟨by decide, List.mem_cons_self _ _, by decide,
    c6_score_is_average_of_terms [wRoute] wUpds wRoute (by decide)
      (List.mem_cons_self _ _) (by decide)⟩

theorem contrib_disabled_top (u : GoUpdate) (r : GoRoute) (hdis : r.enabled = false) :
    contrib u r = ⊤ := by
  unfold contrib
  rw [hdis]
  simp

theorem accumScores_disabled_top (routes : List GoRoute) (upds : List GoUpdate)
    (r : GoRoute) (hmem : r ∈ routes) (hdis : r.enabled = false) (hupds : upds ≠ []) :
    accumScores routes upds r.id = ⊤ := by
  rw [accumScores_apply]
  obtain ⟨u0, hu0⟩ := List.exists_mem_of_ne_nil upds hupds
  have hinner : ((routes.map (fun r2 => if r.id = r2.id then contrib u0 r2 else 0)).sum) = ⊤ := by
    have hval : (fun r2 => if r.id = r2.id then contrib u0 r2 else 0) r = ⊤ := by
      dsimp only
      rw [if_pos rfl, contrib_disabled_top u0 r hdis]
    have hm2 : (⊤ : ℝ≥0∞) ∈ routes.map (fun r2 => if r.id = r2.id then contrib u0 r2 else 0) :=
      hval ▸ List.mem_map_of_mem _ hmem
    have := List.single_le_sum (fun x _ => zero_le x) _ hm2
    exact top_le_iff.mp this
  have hm3 : (⊤ : ℝ≥0∞) ∈ upds.map (fun u =>
      ((routes.map (fun r2 => if r.id = r2.id then contrib u r2 else 0)).sum)) :=
    hinner ▸ List.mem_map_of_mem _ hu0
  have := List.single_le_sum (fun x _ => zero_le x) _ hm3
  exact top_le_iff.mp this

/-- C7: whatever positions the recent updates have, however close a disabled
route's path is, and in whatever order the selection loop iterates the route
ids, GuessRouteForVehicle never returns a disabled route, given at least 5
recent updates and at least one scoreable (enabled, finite-average) route. -/
theorem c7_disabled_route_never_selected (db : DB) (vehicleID now : Int)
    (order : List String) (r : GoRoute)
    (hperm : order.Perm (routeKeys db.routes))
    (hmem : r ∈ db.routes) (hdis : r.enabled = false)
    (hlen : 5 ≤ (getUpdatesForVehicleSince db vehicleID (now - 900)).length)
    (hscoreable : ∃ r2 ∈ db.routes, r2.enabled = true ∧
      accumScores db.routes (getUpdatesForVehicleSince db vehicleID (now - 900)) r2.id /
        ((getUpdatesForVehicleSince db vehicleID (now - 900)).length : ℝ≥0∞) ≠ ⊤) :
    guessRouteForVehicleOrd db vehicleID now order ≠ .onRoute r := by
  intro hres
  unfold guessRouteForVehicleOrd at hres
  rw [if_neg (not_lt.mpr hlen)] at hres
  dsimp only at hres
  by_cases hs : selectRouteID (fun id =>
      accumScores db.routes (getUpdatesForVehicleSince db vehicleID (now - 900)) id /
        ((getUpdatesForVehicleSince db vehicleID (now - 900)).length : ℝ≥0∞)) order = ""
  · rw [if_pos hs] at hres
    exact GuessResult.noConfusion hres
  · rw [if_neg hs] at hres
    rcases hg : getRoute db (selectRouteID (fun id =>
        accumScores db.routes (getUpdatesForVehicleSince db vehicleID (now - 900)) id /
          ((getUpdatesForVehicleSince db vehicleID (now - 900)).length : ℝ≥0∞)) order)
        with _ | r2
    · rw [hg] at hres
      exact GuessResult.noConfusion hres
    · rw [hg] at hres
      have hr2 : r2 = r := by
        have := GuessResult.onRoute.injEq r2 r ▸ hres
        simpa using hres
      subst hr2
      have hid : r2.id = selectRouteID (fun id =>
          accumScores db.routes (getUpdatesForVehicleSince db vehicleID (now - 900)) id /
            ((getUpdatesForVehicleSince db vehicleID (now - 900)).length : ℝ≥0∞)) order := by
        have hfs := List.find?_some hg
        exact eq_of_beq hfs
      obtain ⟨havg, _, h5⟩ := selectRouteID_attains _ order hs
      rw [← hid] at havg
      have hupne : getUpdatesForVehicleSince db vehicleID (now - 900) ≠ [] := by
        have : 0 < (getUpdatesForVehicleSince db vehicleID (now - 900)).length := by omega
        exact List.length_pos.mp this
      have htop : accumScores db.routes (getUpdatesForVehicleSince db vehicleID (now - 900))
          r2.id / ((getUpdatesForVehicleSince db vehicleID (now - 900)).length : ℝ≥0∞) = ⊤ := by
        rw [accumScores_disabled_top db.routes _ r2 hmem hdis hupne]
        exact ENNReal.top_div_of_ne_top (ENNReal.natCast_ne_top _)
      rw [htop] at havg
      have hle : listMin (order.map (fun id =>
          accumScores db.routes (getUpdatesForVehicleSince db vehicleID (now - 900)) id /
            ((getUpdatesForVehicleSince db vehicleID (now - 900)).length : ℝ≥0∞))) ≤ 5 :=
        not_lt.mp h5
      rw [← havg] at hle
      exact absurd hle (not_le.mpr five_lt_top)

theorem euclid_origin : euclid wUpd.latitude wUpd.longitude ⟨0, 0⟩ = 0 := by
  unfold euclid wUpd
  norm_num

theorem nearestDistance_origin :
    nearestDistance wUpd.latitude wUpd.longitude wRoute.coords = 0 := by
  show nearestDistance wUpd.latitude wUpd.longitude [⟨0, 0⟩] = 0
  unfold nearestDistance
  rw [List.foldl_cons, List.foldl_nil]
  dsimp only
  rw [euclid_origin, ENNReal.ofReal_zero]
  rw [if_pos ENNReal.zero_lt_top]

theorem specTerm_origin : specTerm wRoute wUpd = 0 := by
  unfold specTerm
  dsimp only
  rw [nearestDistance_origin]
  rw [if_neg ENNReal.not_lt_zero]
  rw [show wRoute.enabled = true from rfl, if_pos rfl]
  simp

theorem wRoute_avg_finite :
    accumScores wDB.routes wUpds wRoute.id / (wUpds.length : ℝ≥0∞) ≠ ⊤ := by
  rw [accumScores_eq_sum wDB.routes wUpds wRoute (by decide)
    (List.mem_cons_self _ _)]
  rw [show wUpds.map (specTerm wRoute) = [0, 0, 0, 0, 0] by
    simp [wUpds, specTerm_origin]]
  rw [show ([0, 0, 0, 0, 0] : List ℝ≥0∞).sum = 0 by simp]
  rw [ENNReal.zero_div]
  exact ENNReal.zero_ne_top

theorem c7_witness :
    ((routeKeys wDB.routes).Perm (routeKeys wDB.routes)) ∧
    (wRouteDis ∈ wDB.routes) ∧ (wRouteDis.enabled = false) ∧
    (5 ≤ (getUpdatesForVehicleSince wDB 1 (1000 - 900)).length) ∧
    (∃ r2 ∈ wDB.routes, r2.enabled = true ∧
      accumScores wDB.routes (getUpdatesForVehicleSince wDB 1 (1000 - 900)) r2.id /
        ((getUpdatesForVehicleSince wDB 1 (1000 - 900)).length : ℝ≥0∞) ≠ ⊤) ∧
    guessRouteForVehicleOrd wDB 1 1000 (routeKeys wDB.routes) ≠ .onRoute wRouteDis := by
  have h1 : getUpdatesForVehicleSince wDB 1 (1000 - 900) = wUpds := by decide
  have hmem : wRouteDis ∈ wDB.routes :=
    List.mem_cons_of_mem wRoute (List.mem_cons_self wRouteDis [])
  have hsc : ∃ r2 ∈ wDB.routes, r2.enabled = true ∧
      accumScores wDB.routes (getUpdatesForVehicleSince wDB 1 (1000 - 900)) r2.id /
        ((getUpdatesForVehicleSince wDB 1 (1000 - 900)).length : ℝ≥0∞) ≠ ⊤ := by
    refine ⟨wRoute, List.mem_cons_self _ _, rfl, ?_⟩
    rw [h1]
    exact wRoute_avg_finite
  refine ⟨List.Perm.refl _, hmem, rfl, by rw [h1]; decide, hsc, ?_⟩
  exact c7_disabled_route_never_selected wDB 1 1000 (routeKeys wDB.routes) wRouteDis
    (List.Perm.refl _) hmem rfl (by rw [h1]; decide) hsc

theorem guessRouteForVehicle_ne_dbErr (db : DB) (vehicleID now : Int) :
    guessRouteForVehicle db vehicleID now ≠ .dbErr := by
  unfold guessRouteForVehicle guessRouteForVehicleOrd
  by_cases hlen : (getUpdatesForVehicleSince db vehicleID (now - 900)).length < 5
  · rw [if_pos hlen]
    exact fun h => GuessResult.noConfusion h
  · rw [if_neg hlen]
    dsimp only
    by_cases hs : selectRouteID (fun id =>
        accumScores db.routes (getUpdatesForVehicleSince db vehicleID (now - 900)) id /
          ((getUpdatesForVehicleSince db vehicleID (now - 900)).length : ℝ≥0∞))
        (routeKeys db.routes) = ""
    · rw [if_pos hs]
      exact fun h => GuessResult.noConfusion h
    · rw [if_neg hs]
      obtain ⟨-, hselmem, -⟩ := selectRouteID_attains _ (routeKeys db.routes) hs
      obtain ⟨r0, hr0, hr0id⟩ := List.mem_map.mp (List.mem_dedup.mp hselmem)
      rcases hg : getRoute db (selectRouteID (fun id =>
          accumScores db.routes (getUpdatesForVehicleSince db vehicleID (now - 900)) id /
            ((getUpdatesForVehicleSince db vehicleID (now - 900)).length : ℝ≥0∞))
          (routeKeys db.routes)) with _ | r2
      · exfalso
        apply List.find?_eq_none.mp hg r0 hr0
        exact beq_iff_eq.mpr hr0id
      · exact fun h => GuessResult.noConfusion h

theorem lastFold_mem (l : List GoUpdate) :
    ∀ acc : Option GoUpdate,
      (l.foldl (fun acc u => match acc with
        | none => some u
        | some a => if a.created ≤ u.created then some u else some a) acc = acc) ∨
      (∃ a, l.foldl (fun acc u => match acc with
        | none => some u
        | some a => if a.created ≤ u.created then some u else some a) acc = some a ∧ a ∈ l) := by
  induction l with
  | nil => exact fun acc => Or.inl rfl
  | cons u l ih =>
    intro acc
    rw [List.foldl_cons]
    rcases ih (match acc with
      | none => some u
      | some a => if a.created ≤ u.created then some u else some a) with h | h
    · rw [h]
      rcases acc with _ | a
      · exact Or.inr ⟨u, rfl, List.mem_cons_self u l⟩
      · dsimp only
        by_cases hc : a.created ≤ u.created
        · rw [if_pos hc]
          exact Or.inr ⟨u, rfl, List.mem_cons_self u l⟩
        · rw [if_neg hc]
          exact Or.inl rfl
    · obtain ⟨a, ha, hmem⟩ := h
      exact Or.inr ⟨a, ha, List.mem_cons_of_mem u hmem⟩

theorem getLast_createUpdate (db : DB) (u : GoUpdate)
    (hmono : ∀ w ∈ db.updates, w.created ≤ u.created) :
    getLastUpdateForVehicle (createUpdate db u) u.vehicleID = some u := by
  unfold getLastUpdateForVehicle createUpdate
  dsimp only
  rw [List.filter_append]
  rw [show List.filter (fun w => w.vehicleID == u.vehicleID) [u] = [u] by simp]
  rw [List.foldl_append, List.foldl_cons, List.foldl_nil]
  rcases lastFold_mem (db.updates.filter (fun w => w.vehicleID == u.vehicleID)) none
    with h | h
  · rw [h]
  · obtain ⟨a, ha, hmem⟩ := h
    rw [ha]
    dsimp only
    rw [if_pos (hmono a (List.mem_of_mem_filter hmem))]

theorem handleParsed_stores (db : DB) (now : Int) (rec : ParsedRecord)
    (vehicleID : Int) (v : GoVehicle) (kmh : ℚ) (ts : Int)
    (hid : atoiGo (stripTag rec.id "Vehicle ID:") = some vehicleID)
    (hveh : getVehicleByITrakID db vehicleID = some v)
    (hspd : parseFloatGo (stripTag rec.speed "spd:") = some kmh)
    (hts : generateTimestamp (stripTag rec.time "time:") (stripTag rec.date "date:") = .ok ts)
    (hnotdup : (match getLastUpdateForVehicle db v.id with
      | some lu => lu.timestamp == ts
      | none => false) = false) :
    ∃ u, handleParsed db now rec = (.stored u, createUpdate db u) ∧
      u.timestamp = ts ∧ u.created = now ∧ u.vehicleID = v.id ∧
      u.latitude = (parseFloatGo (stripTag rec.lat "lat:")).getD 0 ∧
      u.longitude = (parseFloatGo (stripTag rec.lng "lon:")).getD 0 := by
  unfold handleParsed
  rw [hid]
  dsimp only
  rw [hveh]
  dsimp only
  rw [hspd]
  dsimp only
  rw [hts]
  dsimp only
  rw [hnotdup]
  rw [if_neg (by simp)]
  rcases hg : guessRouteForVehicle db v.id now with _ | r | _
  · exact ⟨_, rfl, rfl, rfl, rfl, rfl, rfl⟩
  · exact ⟨_, rfl, rfl, rfl, rfl, rfl, rfl⟩
  · exact absurd hg (guessRouteForVehicle_ne_dbErr db v.id now)

theorem handleParsed_skips_dup (db : DB) (now : Int) (rec : ParsedRecord)
    (vehicleID : Int) (v : GoVehicle) (kmh : ℚ) (ts : Int) (lu : GoUpdate)
    (hid : atoiGo (stripTag rec.id "Vehicle ID:") = some vehicleID)
    (hveh : getVehicleByITrakID db vehicleID = some v)
    (hspd : parseFloatGo (stripTag rec.speed "spd:") = some kmh)
    (hts : generateTimestamp (stripTag rec.time "time:") (stripTag rec.date "date:") = .ok ts)
    (hlast : getLastUpdateForVehicle db v.id = some lu)
    (hdup : lu.timestamp = ts) :
    handleParsed db now rec = (.skipped, db) := by
  unfold handleParsed
  rw [hid]
  dsimp only
  rw [hveh]
  dsimp only
  rw [hspd]
  dsimp only
  rw [hts]
  dsimp only
  rw [hlast]
  dsimp only
  rw [if_pos (by simp [hdup])]

theorem handleParsed_skips_speed (db : DB) (now : Int) (rec : ParsedRecord)
    (vehicleID : Int) (v : GoVehicle)
    (hid : atoiGo (stripTag rec.id "Vehicle ID:") = some vehicleID)
    (hveh : getVehicleByITrakID db vehicleID = some v)
    (hspd : parseFloatGo (stripTag rec.speed "spd:") = none) :
    handleParsed db now rec = (.skipped, db) := by
  unfold handleParsed
  rw [hid]
  dsimp only
  rw [hveh]
  dsimp only
  rw [hspd]

/-- C1 counterexample: the claim says a sample whose reconstructed timestamp
precedes the stored latest update's timestamp is rejected with no new Update
row; but the code only compares for equality, so this record — whose
timestamp (2017-11-12) strictly precedes the stored update's (2020-01-01) —
is accepted and a new row is inserted. -/
theorem c1_counterexample :
    getLastUpdateForVehicle dbC1 1 = some uStored2020 ∧
    goTimeDate 2017 11 12 9 19 2 < uStored2020.timestamp ∧
    (processVehicleData dbC1 1000 recOldStr.data).2.updates.length =
      dbC1.updates.length + 1 := by
  refine ⟨by decide, by decide, ?_⟩
  have hm : findMatch recOldStr.data = some recP := by decide
  unfold processVehicleData
  rw [hm]
  dsimp only
  obtain ⟨u, hu, -, -, -, -, -⟩ := handleParsed_stores dbC1 1000 recP 1
    ⟨1, 1, "Bus 1", true⟩ 10 (goTimeDate 2017 11 12 9 19 2)
    (by decide) (by decide) (by decide) (by decide) (by decide)
  rw [hu]
  show (dbC1.updates ++ [u]).length = dbC1.updates.length + 1
  simp

/-- C1 amended: once a record parses, its vehicle resolves, its speed parses
and its timestamp reconstructs, then — comparing against the stored latest
update — a sample whose timestamp exactly equals the stored one is rejected
silently (no new Update row, the database unchanged), while a sample whose
timestamp differs in either direction (strictly later or strictly earlier) is
accepted and stored; a vehicle with no stored update is always accepted; and
feeding the identical record twice (starting from a store whose creation
times do not exceed now) yields exactly one new stored Update. -/
theorem c1_duplicate_rejected_new_stored (db : DB) (now : Int) (rec : ParsedRecord)
    (vehicleID : Int) (v : GoVehicle) (kmh : ℚ) (ts : Int)
    (hid : atoiGo (stripTag rec.id "Vehicle ID:") = some vehicleID)
    (hveh : getVehicleByITrakID db vehicleID = some v)
    (hspd : parseFloatGo (stripTag rec.speed "spd:") = some kmh)
    (hts : generateTimestamp (stripTag rec.time "time:") (stripTag rec.date "date:") = .ok ts) :
    (∀ lu, getLastUpdateForVehicle db v.id = some lu →
      ((lu.timestamp = ts → handleParsed db now rec = (.skipped, db)) ∧
       (lu.timestamp ≠ ts → ∃ u, handleParsed db now rec = (.stored u, createUpdate db u) ∧
          u.timestamp = ts ∧ u.created = now ∧ u.vehicleID = v.id))) ∧
    (getLastUpdateForVehicle db v.id = none →
      ∃ u, handleParsed db now rec = (.stored u, createUpdate db u) ∧
        u.timestamp = ts ∧ u.created = now ∧ u.vehicleID = v.id) ∧
    ((∀ w ∈ db.updates, w.created ≤ now) →
      (match getLastUpdateForVehicle db v.id with
        | some lu => lu.timestamp ≠ ts
        | none => True) →
      ((handleParsed (handleParsed db now rec).2 now rec).2).updates.length =
        db.updates.length + 1) := by
  refine ⟨?_, ?_, ?_⟩
  · intro lu hlast
    constructor
    · intro hdup
      exact handleParsed_skips_dup db now rec vehicleID v kmh ts lu hid hveh hspd hts hlast hdup
    · intro hne
      obtain ⟨u, hu, h1, h2, h3, -, -⟩ := handleParsed_stores db now rec vehicleID v kmh ts
        hid hveh hspd hts (by rw [hlast]; simp [hne])
      exact ⟨u, hu, h1, h2, h3⟩
  · intro hnone
    obtain ⟨u, hu, h1, h2, h3, -, -⟩ := handleParsed_stores db now rec vehicleID v kmh ts
      hid hveh hspd hts (by rw [hnone])
    exact ⟨u, hu, h1, h2, h3⟩
  · intro hmono hnot
    have hnd : (match getLastUpdateForVehicle db v.id with
        | some lu => lu.timestamp == ts
        | none => false) = false := by
      rcases hlast : getLastUpdateForVehicle db v.id with _ | lu
      · rfl
      · rw [hlast] at hnot
        simpa using hnot
    obtain ⟨u, hu, hts2, hcr, hvid, -, -⟩ := handleParsed_stores db now rec vehicleID v kmh ts
      hid hveh hspd hts hnd
    rw [hu]
    have hveh2 : getVehicleByITrakID (createUpdate db u) vehicleID = some v := hveh
    have hlast2 : getLastUpdateForVehicle (createUpdate db u) v.id = some u := by
      rw [← hvid]
      exact getLast_createUpdate db u (fun w hw => by rw [hcr]; exact hmono w hw)
    rw [handleParsed_skips_dup (createUpdate db u) now rec vehicleID v kmh ts u
      hid hveh2 hspd hts hlast2 hts2]
    show (db.updates ++ [u]).length = db.updates.length + 1
    simp

theorem c1_witness :
    (atoiGo (stripTag recP.id "Vehicle ID:") = some 1) ∧
    (getVehicleByITrakID wDB 1 = some ⟨1, 1, "Bus 1", true⟩) ∧
    (parseFloatGo (stripTag recP.speed "spd:") = some 10) ∧
    (generateTimestamp (stripTag recP.time "time:") (stripTag recP.date "date:") =
      .ok (goTimeDate 2017 11 12 9 19 2)) ∧
    (getLastUpdateForVehicle wDB (1 : Int) = some wUpd) ∧
    (wUpd.timestamp ≠ goTimeDate 2017 11 12 9 19 2) ∧
    (∃ u, handleParsed wDB 1000 recP = (.stored u, createUpdate wDB u) ∧
      u.timestamp = goTimeDate 2017 11 12 9 19 2 ∧ u.created = 1000 ∧
      u.vehicleID = (⟨1, 1, "Bus 1", true⟩ : GoVehicle).id) :=
  ⟨by decide, by decide, by decide, by decide, by decide, by decide,
    ((c1_duplicate_rejected_new_stored wDB 1000 recP 1 ⟨1, 1, "Bus 1", true⟩ 10
      (goTimeDate 2017 11 12 9 19 2) (by decide) (by decide) (by decide) (by decide)).1
      wUpd (by decide)).2 (by decide)⟩

theorem handleParsed_skips_id (db : DB) (now : Int) (rec : ParsedRecord)
    (hid : atoiGo (stripTag rec.id "Vehicle ID:") = none) :
    handleParsed db now rec = (.skipped, db) := by
  unfold handleParsed
  rw [hid]

theorem handleParsed_skips_ts (db : DB) (now : Int) (rec : ParsedRecord)
    (vehicleID : Int) (v : GoVehicle) (kmh : ℚ)
    (hid : atoiGo (stripTag rec.id "Vehicle ID:") = some vehicleID)
    (hveh : getVehicleByITrakID db vehicleID = some v)
    (hspd : parseFloatGo (stripTag rec.speed "spd:") = some kmh)
    (hts : generateTimestamp (stripTag rec.time "time:") (stripTag rec.date "date:") = .failed) :
    handleParsed db now rec = (.skipped, db) := by
  unfold handleParsed
  rw [hid]
  dsimp only
  rw [hveh]
  dsimp only
  rw [hspd]
  dsimp only
  rw [hts]

/-- C10: a record that matches the field grammar but whose lat (or lon) token
fails numeric parsing is not abandoned: the error is only logged, and an
Update row is still persisted with the Go zero value 0 for that coordinate —
unlike a vehicle-id, speed, or timestamp parse failure, each of which
abandons the record with no row created. -/
theorem c10_latlng_parse_failure_still_persists (db : DB) (now : Int) (rec : ParsedRecord)
    (vehicleID : Int) (v : GoVehicle) (kmh : ℚ) (ts : Int)
    (hid : atoiGo (stripTag rec.id "Vehicle ID:") = some vehicleID)
    (hveh : getVehicleByITrakID db vehicleID = some v)
    (hspd : parseFloatGo (stripTag rec.speed "spd:") = some kmh)
    (hts : generateTimestamp (stripTag rec.time "time:") (stripTag rec.date "date:") = .ok ts)
    (hnotdup : (match getLastUpdateForVehicle db v.id with
      | some lu => lu.timestamp == ts
      | none => false) = false) :
    ((parseFloatGo (stripTag rec.lat "lat:") = none →
      ∃ u, handleParsed db now rec = (.stored u, createUpdate db u) ∧ u.latitude = 0) ∧
     (parseFloatGo (stripTag rec.lng "lon:") = none →
      ∃ u, handleParsed db now rec = (.stored u, createUpdate db u) ∧ u.longitude = 0)) ∧
    ((∀ rec2 : ParsedRecord, atoiGo (stripTag rec2.id "Vehicle ID:") = none →
        handleParsed db now rec2 = (.skipped, db)) ∧
     (∀ rec2 : ParsedRecord, atoiGo (stripTag rec2.id "Vehicle ID:") = some vehicleID →
        parseFloatGo (stripTag rec2.speed "spd:") = none →
        handleParsed db now rec2 = (.skipped, db)) ∧
     (∀ rec2 : ParsedRecord, atoiGo (stripTag rec2.id "Vehicle ID:") = some vehicleID →
        parseFloatGo (stripTag rec2.speed "spd:") = some kmh →
        generateTimestamp (stripTag rec2.time "time:") (stripTag rec2.date "date:") = .failed →
        handleParsed db now rec2 = (.skipped, db))) := by
  refine ⟨⟨?_, ?_⟩, ?_, ?_, ?_⟩
  · intro hlat
    obtain ⟨u, hu, -, -, -, hul, -⟩ := handleParsed_stores db now rec vehicleID v kmh ts
      hid hveh hspd hts hnotdup
    rw [hlat] at hul
    exact ⟨u, hu, hul⟩
  · intro hlng
    obtain ⟨u, hu, -, -, -, -, hug⟩ := handleParsed_stores db now rec vehicleID v kmh ts
      hid hveh hspd hts hnotdup
    rw [hlng] at hug
    exact ⟨u, hu, hug⟩
  · intro rec2 h2
    exact handleParsed_skips_id db now rec2 h2
  · intro rec2 h2 h3
    exact handleParsed_skips_speed db now rec2 vehicleID v h2 hveh h3
  · intro rec2 h2 h3 h4
    exact handleParsed_skips_ts db now rec2 vehicleID v kmh h2 hveh h3 h4

theorem c10_witness :
    (findMatch recBadLatStr.data = some recPBadLat) ∧
    (parseFloatGo (stripTag recPBadLat.lat "lat:") = none) ∧
    (parseFloatGo (stripTag recPBadLat.lng "lon:") = none) ∧
    (∃ u, handleParsed wDB 1000 recPBadLat = (.stored u, createUpdate wDB u) ∧
      u.latitude = 0) :=
  ⟨by decide, by decide, by decide,
    ((c10_latlng_parse_failure_still_persists wDB 1000 recPBadLat 1
      ⟨1, 1, "Bus 1", true⟩ 10 (goTimeDate 2017 11 12 9 19 2)
      (by decide) (by decide) (by decide) (by decide) (by decide)).1.1 (by decide))⟩

/-- C2: a polling cycle whose body contains one malformed record (no grammar
match) and one well-formed record does not isolate the failure: the regex
returns no match for the malformed record, indexing `[0]` into the nil result
panics, and an unrecovered panic in a goroutine kills the whole Go process —
the cycle crashes instead of producing N-1 updates and one logged failure. -/
theorem c2_malformed_record_crashes_cycle :
    findMatch recOldStr.data = some recP ∧
    findMatch recBadStr.data = none ∧
    vehicleRecords bodyC2.data = [recBadStr.data, recOldStr.data] ∧
    processVehicleData wDB 1000 recBadStr.data = (Outcome.panicked, wDB) ∧
    runCycle wDB 1000 0 bodyC2.data = none := by
  have hp : processVehicleData wDB 1000 recBadStr.data = (Outcome.panicked, wDB) := by
    unfold processVehicleData
    rw [show findMatch recBadStr.data = none from by decide]
  refine ⟨by decide, by decide, by decide, hp, ?_⟩
  have hrecs : vehicleRecords bodyC2.data = [recBadStr.data, recOldStr.data] := by decide
  unfold runCycle
  rw [hrecs]
  dsimp only
  rw [List.foldl_cons]
  dsimp only
  rw [hp]
  rfl
